import Mathlib

/-!
Shallow embedding of the VPN-Manager core (subscription fetch/decode pipeline,
server registry with settings merge, port allocation, process lifecycle
manager, reconciliation orchestrator) from `src/vpn/mod.rs`,
`src/xray_manager.rs`, `src/config.rs` and `src/main.rs`.

Machine integers (`u16` ports) are modelled as `Nat`; the port scan in
`assign_local_ports` stays far below `2 ^ 16` for all inputs considered here,
so wrap-around is never reached and is not modelled.  External crates
(`v2parser`, `base64`, UTF-8 decoding, `reqwest`, the xray process runner) are
modelled as explicit function parameters: they are capabilities outside this
repository.  Mutex acquisition is modelled as always succeeding (single-thread
view); `HashMap`/`HashSet` are modelled as association lists / `List Nat` with
membership semantics.
-/

namespace VpnManager

/-- `VpnServer` from `src/vpn/mod.rs` (ports as `Nat`). -/
structure VpnServer where
  protocol : String
  address : String
  port : Nat
  name : String
  enabled : Bool
  local_port : Nat
  proxy_type : String
  deriving DecidableEq

/-- `ServerSettings` from `src/config.rs`. -/
structure ServerSettings where
  local_port : Nat
  proxy_type : String
  enabled : Bool
  deriving DecidableEq

/-- `VpnServer::get_server_key`: `format!("{}://{}:{}", protocol, address, port)`. -/
def VpnServer.get_server_key (s : VpnServer) : String :=
  s.protocol ++ "://" ++ s.address ++ ":" ++ toString s.port

/-- The saved-settings map `HashMap<String, ServerSettings>`, modelled as a
function (a `HashMap` holds at most one value per key). -/
def SettingsMap := String → Option ServerSettings

/-- First pass of `assign_local_ports` (lines 31-40 of `src/vpn/mod.rs`):
apply saved port / proxy type / enabled flag for every server whose key is in
the map, collecting the applied ports (the `used_ports` set).  Returns the
updated list together with the collected ports. -/
def applySaved (saved : SettingsMap) : List VpnServer → List VpnServer × List Nat
  | [] => ([], [])
  | s :: rest =>
    let (rest', used) := applySaved saved rest
    match saved s.get_server_key with
    | some st =>
      ({ s with local_port := st.local_port, proxy_type := st.proxy_type,
                enabled := st.enabled } :: rest', st.local_port :: used)
    | none => (s :: rest', used)

/-- The `while used_ports.contains(&next_port) { next_port += 1 }` scan, with
explicit fuel.  `used.length + 1` fuel always suffices (proved below), because
each skipped value is a distinct member of `used`. -/
def scanPorts (used : List Nat) : Nat → Nat → Nat
  | 0, p => p
  | fuel + 1, p => if p ∈ used then scanPorts used fuel (p + 1) else p

/-- The port found by the while-loop scan starting at `start`. -/
def findFree (used : List Nat) (start : Nat) : Nat :=
  scanPorts used (used.length + 1) start

/-- Second pass of `assign_local_ports` (lines 42-53 of `src/vpn/mod.rs`):
every server still carrying `local_port = 0` gets the next free port scanned
upward from `next_port`; the chosen port joins the used set and `next_port`
moves past it. -/
def assignNew (used : List Nat) (next_port : Nat) : List VpnServer → List VpnServer
  | [] => []
  | s :: rest =>
    if s.local_port = 0 then
      let p := findFree used next_port
      { s with local_port := p } :: assignNew (p :: used) (p + 1) rest
    else
      s :: assignNew used next_port rest

/-- `assign_local_ports` from `src/vpn/mod.rs`: saved-settings pass, then the
fresh-port pass starting at 1080. -/
def assign_local_ports (servers : List VpnServer) (saved : SettingsMap) : List VpnServer :=
  let (servers1, used) := applySaved saved servers
  assignNew used 1080 servers1

/-- The smallest `n` with `lo ≤ n` and `n ∉ used` (`Nat.find` of that
predicate; `used.sum + lo + 1` witnesses existence). -/
def leastUnused (used : List Nat) (lo : Nat) : Nat :=
  Nat.find (show ∃ n, lo ≤ n ∧ n ∉ used from
    ⟨used.sum + lo + 1, by omega, fun hmem => by
      have hle := List.single_le_sum (fun x _ => Nat.zero_le x) _ hmem
      omega⟩)

/-- Modelled from the spec (§4.2 step 2): the second pass as the spec words
it — each server still carrying the sentinel 0 receives the smallest unused
port counted from 1080 over the used set as it stands at that moment, and the
chosen port immediately joins the used set.  Compared with `assignNew` (the
code's scan from `next_port`) in the C3 theorem. -/
def assignNewSpec (used : List Nat) : List VpnServer → List VpnServer
  | [] => []
  | s :: rest =>
    if s.local_port = 0 then
      let p := leastUnused used 1080
      { s with local_port := p } :: assignNewSpec (p :: used) rest
    else
      s :: assignNewSpec used rest

/-! ## Fetch / decode pipeline (`src/vpn/mod.rs`, lines 56-169) -/

/-- Result of the structured-metadata call of the external URI decoder
(`v2parser::parser::get_metadata` plus the `serde_json` field extraction in
`parse_vpn_uri`); `none` covers a decoder panic, a JSON parse failure, or a
missing/ill-typed `protocol`/`address`/`port` field.  A missing `name` is
`none` in `name` (defaulted to `"Unnamed"` by `parse_vpn_uri`). -/
structure UriMeta where
  protocol : String
  address : String
  port : Nat
  name : Option String

/-- The external URI decoder capability. -/
def MetaDecoder := String → Option UriMeta

/-!
Rust standard-library string primitives used by the pipeline (`str::trim`,
`str::starts_with`, `str::lines`, `str::to_uppercase`), modelled as
structurally recursive functions on the character list of a `String`.
`trim` removes ASCII whitespace only (Rust trims all Unicode whitespace; the
feeds in question are ASCII).
-/

/-- Whitespace for `trim`. -/
def isWSChar (c : Char) : Bool :=
  c = ' ' || c = '\t' || c = '\r' || c = '\n'

/-- Drop leading whitespace characters. -/
def dropLeadingWS : List Char → List Char
  | [] => []
  | c :: cs => if isWSChar c then dropLeadingWS cs else c :: cs

/-- Rust `str::trim`. -/
def strTrim (s : String) : String :=
  ⟨(dropLeadingWS ((dropLeadingWS s.data).reverse)).reverse⟩

/-- `pat` is an initial run of `cs`. -/
def charsStartWith : List Char → List Char → Bool
  | [], _ => true
  | _ :: _, [] => false
  | p :: ps, c :: cs => p = c && charsStartWith ps cs

/-- Rust `str::starts_with`. -/
def strStartsWith (s pat : String) : Bool :=
  charsStartWith pat.data s.data

/-- Rust `str::to_uppercase` (ASCII range). -/
def strToUpper (s : String) : String :=
  ⟨s.data.map Char.toUpper⟩

/-- Split a character list at every `'\n'`; always returns at least one
(possibly empty) segment. -/
def splitOnNl : List Char → List (List Char)
  | [] => [[]]
  | c :: rest =>
    match splitOnNl rest with
    | [] => [[]]
    | seg :: segs => if c = '\n' then [] :: seg :: segs else (c :: seg) :: segs

/-- Drop one trailing `'\r'`. -/
def stripTrailingCR (cs : List Char) : List Char :=
  match cs.getLast? with
  | some c => if c = '\r' then cs.dropLast else cs
  | none => cs

/-- Strip the `'\r'` of a `"\r\n"` line ending from every segment that was
followed by a `'\n'` — that is, every segment but the last. -/
def stripCRs : List (List Char) → List (List Char)
  | [] => []
  | [seg] => [seg]
  | seg :: rest => stripTrailingCR seg :: stripCRs rest

/-- Rust `str::lines`: split at `'\n'` / `"\r\n"` boundaries; a final line
terminator produces no trailing empty line. -/
def rustLines (s : String) : List String :=
  let parts := stripCRs (splitOnNl s.data)
  let parts := if parts.getLast? = some [] then parts.dropLast else parts
  parts.map (fun cs => String.mk cs)

/-- `parse_vpn_uri` from `src/vpn/mod.rs`: recognized-scheme filter, then the
external decoder; on success the server starts disabled, with the unassigned
local-port sentinel 0 and proxy type `"SOCKS"`. -/
def parse_vpn_uri (getMeta : MetaDecoder) (uri : String) : Option VpnServer :=
  let is_supported :=
    strStartsWith uri "vless://" || strStartsWith uri "vmess://"
      || strStartsWith uri "trojan://" || strStartsWith uri "ss://"
      || strStartsWith uri "shadowsocks://" || strStartsWith uri "socks://"
  if !is_supported then
    none
  else
    match getMeta uri with
    | some m =>
      some { protocol := strToUpper m.protocol, address := m.address, port := m.port,
             name := m.name.getD "Unnamed", enabled := false, local_port := 0,
             proxy_type := "SOCKS" }
    | none => none

/-- Outcome of `reqwest::blocking::get(url)` followed by `response.text()`:
either stage can fail, otherwise a body string is available. -/
inductive FetchOutcome where
  | getErr
  | textErr
  | body (content : String)

/-- The external base64-standard decoder (`base64` crate): input string to
decoded bytes, `none` on failure. -/
def B64Decoder := String → Option (List Nat)

/-- The external UTF-8 decoder (`String::from_utf8`): bytes to string, `none`
on failure. -/
def Utf8Decoder := List Nat → Option String

/-- The line-parsing loop shared by both fetch functions: trim each line and
keep the successfully parsed servers, in order. -/
def process_decoded_text (getMeta : MetaDecoder) (decoded_text : String) : List VpnServer :=
  (rustLines decoded_text).filterMap (fun line => parse_vpn_uri getMeta (strTrim line))

/-- `fetch_and_process_vpn_list` from `src/vpn/mod.rs`: transport, body text,
base64 decode of the trimmed body, UTF-8 decode, then the per-line parse loop;
every failing match arm falls through to the (still empty) `servers` vector. -/
def fetch_and_process_vpn_list (b64 : B64Decoder) (utf8 : Utf8Decoder)
    (getMeta : MetaDecoder) (fetched : FetchOutcome) : List VpnServer :=
  match fetched with
  | .getErr => []
  | .textErr => []
  | .body content =>
    match b64 (strTrim content) with
    | none => []
    | some decoded_bytes =>
      match utf8 decoded_bytes with
      | none => []
      | some decoded_text => process_decoded_text getMeta decoded_text

/-- `HashMap::insert` on an association list: replaces any previous binding of
the key. -/
def assocInsert (m : List (String × String)) (k v : String) : List (String × String) :=
  (k, v) :: m.filter (fun e => e.1 ≠ k)

/-- `fetch_subscription_uris` from `src/vpn/mod.rs`: same pipeline, but builds
the map from server key to the original (trimmed) URI line. -/
def fetch_subscription_uris (b64 : B64Decoder) (utf8 : Utf8Decoder)
    (getMeta : MetaDecoder) (fetched : FetchOutcome) : List (String × String) :=
  match fetched with
  | .getErr => []
  | .textErr => []
  | .body content =>
    match b64 (strTrim content) with
    | none => []
    | some decoded_bytes =>
      match utf8 decoded_bytes with
      | none => []
      | some decoded_text =>
        (rustLines decoded_text).foldl (fun uris line =>
          let trimmed := strTrim line
          match parse_vpn_uri getMeta trimmed with
          | some server => assocInsert uris server.get_server_key trimmed
          | none => uris) []

/-! ## Process lifecycle manager (`src/xray_manager.rs`) -/

/-- The external `XrayRunner` handle, abstracted to its process id. -/
structure XrayRunner where
  pid : Nat
  deriving DecidableEq

/-- `XRAY_PROCESSES`: `HashMap<String, XrayRunner>` as an association list
(at most one binding per key, maintained by the operations below). -/
def ProcTable := List (String × XrayRunner)

/-- Lookup in the process table. -/
def tableFind (t : ProcTable) (k : String) : Option XrayRunner :=
  (List.find? (fun e => e.1 = k) t).map (·.2)

/-- `HashMap::remove`-style erasure of a key. -/
def tableErase (t : ProcTable) (k : String) : ProcTable :=
  List.filter (fun e => e.1 ≠ k) t

/-- `HashMap::insert`: replace any previous binding. -/
def tableInsert (t : ProcTable) (k : String) (v : XrayRunner) : ProcTable :=
  (k, v) :: tableErase t k

/-- The `(socks_port, http_port)` selection at the top of `start_server`
(lines 19-24 of `src/xray_manager.rs`). -/
def determine_ports (proxy_type : String) (local_port : Nat) : Option Nat × Option Nat :=
  match proxy_type with
  | "SOCKS" => (some local_port, none)
  | "HTTP" => (none, some local_port)
  | _ => (some local_port, none)

/-- The external `parser::create_json_config` capability:
`(uri, socks_port, http_port) → config document`. -/
def ConfigBuilder := String → Option Nat → Option Nat → String

/-- The external `XrayRunner::start` capability:
`(config document, binary path) → runner or error`. -/
def Spawner := String → String → Except String XrayRunner

/-- The external `XrayRunner::stop` capability, per runner. -/
def Stopper := XrayRunner → Except String Unit

/-- `start_server` from `src/xray_manager.rs` as a transition on the process
table: build the config, spawn; on spawn failure return the mapped error with
the table untouched, on success insert the runner under the key.  (The
`XRAY_PROCESSES.lock()` is modelled as always succeeding.) -/
def start_server (create_json_config : ConfigBuilder) (spawn : Spawner)
    (table : ProcTable) (server_key uri : String) (local_port : Nat)
    (proxy_type xray_binary_path : String) : Except String Unit × ProcTable :=
  let (socks_port, http_port) := determine_ports proxy_type local_port
  let config_json := create_json_config uri socks_port http_port
  match spawn config_json xray_binary_path with
  | .error e => (.error ("Failed to start xray: " ++ e), table)
  | .ok runner => (.ok (), tableInsert table server_key runner)

/-- `stop_server` from `src/xray_manager.rs`: remove the entry first, then try
to stop the removed runner, surfacing its error; a missing key is a no-op
success. -/
def stop_server (stop : Stopper) (table : ProcTable) (server_key : String) :
    Except String Unit × ProcTable :=
  match tableFind table server_key with
  | some runner =>
    match stop runner with
    | .error e => (.error ("Failed to stop xray: " ++ e), tableErase table server_key)
    | .ok _ => (.ok (), tableErase table server_key)
  | none => (.ok (), table)

/-- `stop_all_servers` from `src/xray_manager.rs`: drain the whole table,
calling `stop` on every entry and discarding each result (`let _ = ...`);
always returns `Ok`. -/
def stop_all_servers (stop : Stopper) (table : ProcTable) :
    Except String Unit × ProcTable :=
  let _ignored := table.map (fun e => stop e.2)
  (.ok (), [])

/-! ## Config and reconciliation orchestrator (`src/config.rs`, `src/main.rs`) -/

/-- `Config` from `src/config.rs` (the `server_settings` map as a function). -/
structure Config where
  subscription_url : String
  xray_binary_path : String
  server_settings : SettingsMap
  autostart : Bool

/-- Lookup in the subscription-URI map built by `fetch_subscription_uris`. -/
def urisFind (m : List (String × String)) (k : String) : Option String :=
  (List.find? (fun e => e.1 = k) m).map (·.2)

/-- The mutable globals touched by a reconciliation cycle: `XRAY_PROCESSES`
and `VPN_SERVERS`. -/
structure AppState where
  xray_processes : ProcTable
  vpn_servers : Option (List VpnServer)

/-- Environment of one `restart_xray_servers` run: the `Config::load` result
and the external capabilities / network outcomes of the cycle.  The two
independent subscription fetches get their own transport outcomes. -/
structure RestartEnv where
  load_result : Except String Config
  b64 : B64Decoder
  utf8 : Utf8Decoder
  getMeta : MetaDecoder
  uris_fetch : FetchOutcome
  list_fetch : FetchOutcome
  create_json_config : ConfigBuilder
  spawn : Spawner
  stop : Stopper

/-- The start loop of `restart_xray_servers` (lines 56-77 of `src/main.rs`):
for each enabled server whose settings and original URI are both present,
call `start_server`; its result is only printed, so each iteration keeps the
table produced by the attempt. -/
def start_enabled_servers (env : RestartEnv) (config : Config)
    (subscription_uris : List (String × String)) (servers : List VpnServer)
    (table : ProcTable) : ProcTable :=
  servers.foldl (fun tbl server =>
    if server.enabled then
      let server_key := server.get_server_key
      match config.server_settings server_key with
      | some settings =>
        match urisFind subscription_uris server_key with
        | some uri =>
          (start_server env.create_json_config env.spawn tbl server_key uri
            settings.local_port settings.proxy_type config.xray_binary_path).2
        | none => tbl
      | none => tbl
    else tbl) table

/-- `restart_xray_servers` from `src/main.rs` as a transition on the global
state: stop everything; if the config loads and both the subscription URL and
the binary path are non-empty, fetch the URI map and the server list, merge
ports, publish the registry snapshot, and start the enabled servers; otherwise
leave the registry as it was.  (The final `request_menu_update` only flips a
UI flag and is not part of the modelled state.) -/
def restart_xray_servers (env : RestartEnv) (st : AppState) : AppState :=
  let table0 := (stop_all_servers env.stop st.xray_processes).2
  match env.load_result with
  | .ok config =>
    if config.subscription_url ≠ "" ∧ config.xray_binary_path ≠ "" then
      let subscription_uris := fetch_subscription_uris env.b64 env.utf8 env.getMeta env.uris_fetch
      let servers0 := fetch_and_process_vpn_list env.b64 env.utf8 env.getMeta env.list_fetch
      let servers := assign_local_ports servers0 config.server_settings
      let table1 := start_enabled_servers env config subscription_uris servers table0
      { xray_processes := table1, vpn_servers := some servers }
    else
      { xray_processes := table0, vpn_servers := st.vpn_servers }
  | .error _ => { xray_processes := table0, vpn_servers := st.vpn_servers }

/-- The server key a line would contribute: the key of its parsed server, if
the line parses. -/
def parsedKey (getMeta : MetaDecoder) (line : String) : Option String :=
  (parse_vpn_uri getMeta (strTrim line)).map VpnServer.get_server_key

/-! ## Concrete fixtures for counterexamples and witnesses -/

/-- A fetched server (sentinel port 0, decoder defaults), key `VLESS://a:1`. -/
def fxServerA : VpnServer :=
  { protocol := "VLESS", address := "a", port := 1, name := "alpha",
    enabled := false, local_port := 0, proxy_type := "SOCKS" }

/-- A second fetched server, key `VMESS://b:2`. -/
def fxServerB : VpnServer :=
  { protocol := "VMESS", address := "b", port := 2, name := "beta",
    enabled := false, local_port := 0, proxy_type := "SOCKS" }

/-- Saved settings giving both fixture servers the same local port 2000. -/
def fxSavedDup : SettingsMap := fun k =>
  if k = "VLESS://a:1" then some { local_port := 2000, proxy_type := "SOCKS", enabled := true }
  else if k = "VMESS://b:2" then some { local_port := 2000, proxy_type := "SOCKS", enabled := true }
  else none

/-- Saved settings whose stored local port is the sentinel value 0. -/
def fxSavedZero : SettingsMap := fun k =>
  if k = "VLESS://a:1" then some { local_port := 0, proxy_type := "HTTP", enabled := true }
  else none

/-- A base64 decoder fixture: body `"AA"` and `"BB"` decode. -/
def fxB64 : B64Decoder := fun s =>
  if s = "AA" then some [0] else if s = "BB" then some [1] else if s = "CC" then some [2] else none

/-- A UTF-8 decoder fixture: `[0]` is a feed with a duplicated line, `[1]`
two distinct lines, `[2]` two good lines around one unparseable line. -/
def fxUtf8 : Utf8Decoder := fun b =>
  if b = [0] then some "vless://a\nvless://a"
  else if b = [1] then some "vless://a\nvless://b"
  else if b = [2] then some "vless://a\nvmess://bad\nvless://b"
  else none

/-- A URI-decoder fixture recognising `vless://a` and `vless://b`. -/
def fxMeta : MetaDecoder := fun u =>
  if u = "vless://a" then some { protocol := "vless", address := "h", port := 1, name := none }
  else if u = "vless://b" then some { protocol := "vless", address := "h", port := 2, name := none }
  else none

/-- A spawner that always fails. -/
def fxSpawnFail : Spawner := fun _ _ => .error "boom"

/-- A trivial config builder. -/
def fxCfg : ConfigBuilder := fun _ _ _ => "cfg"

/-- A nonempty process table. -/
def fxTable : ProcTable := [("k0", { pid := 7 })]

/-- An unconfigured persisted config (empty subscription URL). -/
def fxConfigNoUrl : Config :=
  { subscription_url := "", xray_binary_path := "/bin/xray",
    server_settings := fun _ => none, autostart := false }

/-- A reconciliation environment whose config load yields `fxConfigNoUrl`. -/
def fxEnvNoUrl : RestartEnv :=
  { load_result := .ok fxConfigNoUrl, b64 := fxB64, utf8 := fxUtf8, getMeta := fxMeta,
    uris_fetch := .getErr, list_fetch := .getErr, create_json_config := fxCfg,
    spawn := fxSpawnFail, stop := fun _ => .error "stuck" }

/-- A starting global state with one tracked process and a published snapshot. -/
def fxState : AppState :=
  { xray_processes := fxTable, vpn_servers := some [fxServerA] }

/-! ## Helper lemmas: the port scan -/

lemma length_filter_mono {α : Type} {p q : α → Bool} (h : ∀ x, p x = true → q x = true) :
    ∀ l : List α, (l.filter p).length ≤ (l.filter q).length := by
  intro l
  induction l with
  | nil => simp
  | cons a t ih =>
    by_cases hp : p a = true
    · rw [List.filter_cons_of_pos hp, List.filter_cons_of_pos (h a hp)]
      simpa using ih
    · rw [List.filter_cons_of_neg hp]
      by_cases hq : q a = true
      · rw [List.filter_cons_of_pos hq]
        exact Nat.le_trans ih (by simp)
      · rw [List.filter_cons_of_neg hq]
        exact ih

lemma length_filter_succ_lt {used : List Nat} {start : Nat} (h : start ∈ used) :
    (used.filter (fun x => start + 1 ≤ x)).length < (used.filter (fun x => start ≤ x)).length := by
  induction used with
  | nil => cases h
  | cons a t ih =>
    simp only [List.filter_cons, decide_eq_true_eq]
    by_cases ha : start = a
    · subst ha
      rw [if_neg (by omega), if_pos (Nat.le_refl start)]
      have hmono := length_filter_mono (α := Nat) (p := fun x => decide (start + 1 ≤ x))
        (q := fun x => decide (start ≤ x)) (by intro x hx; simp at hx ⊢; omega) t
      simp only [List.length_cons]
      omega
    · have h2 : start ∈ t := by
        rcases List.mem_cons.mp h with h1 | h1
        · exact absurd h1 ha
        · exact h1
      have hlt := ih h2
      by_cases hpa : start + 1 ≤ a
      · rw [if_pos hpa, if_pos (by omega)]
        simp only [List.length_cons]
        omega
      · rw [if_neg hpa]
        by_cases hqa : start ≤ a
        · rw [if_pos hqa]
          simp only [List.length_cons]
          omega
        · rw [if_neg hqa]
          exact hlt

lemma scanPorts_spec {used : List Nat} :
    ∀ (fuel start : Nat), (used.filter (fun x => start ≤ x)).length < fuel →
      start ≤ scanPorts used fuel start ∧ scanPorts used fuel start ∉ used ∧
      ∀ q, start ≤ q → q < scanPorts used fuel start → q ∈ used := by
  intro fuel
  induction fuel with
  | zero => intro start h; omega
  | succ f ih =>
    intro start h
    by_cases hmem : start ∈ used
    · have hstep : scanPorts used (f + 1) start = scanPorts used f (start + 1) := by
        simp [scanPorts, hmem]
      have hlt := length_filter_succ_lt hmem
      have hrec := ih (start + 1) (by omega)
      rw [hstep]
      refine ⟨by omega, hrec.2.1, ?_⟩
      intro q h1 h2
      rcases Nat.eq_or_lt_of_le h1 with h3 | h3
      · exact h3 ▸ hmem
      · exact hrec.2.2 q (by omega) h2
    · have hstep : scanPorts used (f + 1) start = start := by
        simp [scanPorts, hmem]
      rw [hstep]
      exact ⟨Nat.le_refl _, hmem, fun q h1 h2 => absurd h1 (by omega)⟩

lemma findFree_spec (used : List Nat) (start : Nat) :
    start ≤ findFree used start ∧ findFree used start ∉ used ∧
      ∀ q, start ≤ q → q < findFree used start → q ∈ used :=
  scanPorts_spec (used.length + 1) start
    (Nat.lt_succ_of_le (List.length_filter_le _ _))

lemma leastUnused_spec (used : List Nat) (lo : Nat) :
    lo ≤ leastUnused used lo ∧ leastUnused used lo ∉ used :=
  Nat.find_spec (show ∃ n, lo ≤ n ∧ n ∉ used from
    ⟨used.sum + lo + 1, by omega, fun hmem => by
      have hle := List.single_le_sum (l := used) (fun x _ => Nat.zero_le x) _ hmem
      omega⟩)

lemma leastUnused_min {used : List Nat} {lo q : Nat} (h1 : lo ≤ q) (h2 : q ∉ used) :
    leastUnused used lo ≤ q :=
  Nat.find_min' (show ∃ n, lo ≤ n ∧ n ∉ used from
    ⟨used.sum + lo + 1, by omega, fun hmem => by
      have hle := List.single_le_sum (l := used) (fun x _ => Nat.zero_le x) _ hmem
      omega⟩) ⟨h1, h2⟩

/-- Under the invariant that every port in `[lo, next)` is already used, the
code's scan from `next` finds exactly the smallest unused port counted from
`lo`. -/
lemma findFree_eq_leastUnused {used : List Nat} {lo next : Nat} (hle : lo ≤ next)
    (hinv : ∀ q, lo ≤ q → q < next → q ∈ used) :
    findFree used next = leastUnused used lo := by
  obtain ⟨h1, h2, h3⟩ := findFree_spec used next
  obtain ⟨h4, h5⟩ := leastUnused_spec used lo
  apply Nat.le_antisymm
  · rcases Nat.lt_or_ge (leastUnused used lo) next with h6 | h6
    · exact absurd (hinv _ h4 h6) h5
    · rcases Nat.lt_or_ge (leastUnused used lo) (findFree used next) with h7 | h7
      · exact absurd (h3 _ h6 h7) h5
      · exact h7
  · exact leastUnused_min (Nat.le_trans hle h1) h2

/-! ## Helper lemmas: the two allocation passes -/

/-- The code's second pass (scanning from the running `next_port`) computes
exactly the spec's second pass (smallest unused port counted from 1080 at
each step), as long as every port in `[1080, next_port)` is already used —
which holds initially (`next_port = 1080`) and is maintained. -/
lemma assignNew_eq_spec :
    ∀ (servers : List VpnServer) (used : List Nat) (next : Nat), 1080 ≤ next →
      (∀ q, 1080 ≤ q → q < next → q ∈ used) →
      assignNew used next servers = assignNewSpec used servers := by
  intro servers
  induction servers with
  | nil => intro used next _ _; rfl
  | cons s rest ih =>
    intro used next h1080 hinv
    by_cases h0 : s.local_port = 0
    · have hp : findFree used next = leastUnused used 1080 :=
        findFree_eq_leastUnused h1080 hinv
      obtain ⟨hge, hnot, hmin⟩ := findFree_spec used next
      simp only [assignNew, assignNewSpec, if_pos h0, hp]
      refine congrArg _ (ih _ _ (by omega) ?_)
      intro q hq1 hq2
      rw [← hp] at hq2 ⊢
      rcases Nat.lt_or_ge q next with h2 | h2
      · exact List.mem_cons_of_mem _ (hinv q hq1 h2)
      · rcases Nat.eq_or_lt_of_le (Nat.le_of_lt_succ hq2) with h3 | h3
        · simp [h3]
        · exact List.mem_cons_of_mem _ (hmin q h2 h3)
    · simp only [assignNew, assignNewSpec, if_neg h0]
      exact congrArg _ (ih used next h1080 hinv)

/-- Elementwise description of the second pass: fields other than
`local_port` never change, a nonzero port is kept verbatim, and a sentinel-0
server gets a port that is not in the entry `used` set and not below the
entry `next_port`. -/
lemma assignNew_forall2 :
    ∀ (servers : List VpnServer) (used : List Nat) (next : Nat),
      List.Forall₂ (fun s s' =>
        (s.local_port ≠ 0 → s' = s) ∧
        (s.local_port = 0 → s'.local_port ∉ used ∧ next ≤ s'.local_port ∧
          s' = { s with local_port := s'.local_port }))
        servers (assignNew used next servers) := by
  intro servers
  induction servers with
  | nil => intro used next; exact List.Forall₂.nil
  | cons s rest ih =>
    intro used next
    by_cases h0 : s.local_port = 0
    · obtain ⟨hge, hnot, _⟩ := findFree_spec used next
      simp only [assignNew, if_pos h0]
      refine List.Forall₂.cons ⟨fun h => absurd h0 h, fun _ => ⟨hnot, hge, rfl⟩⟩ ?_
      refine (ih (findFree used next :: used) (findFree used next + 1)).imp ?_
      intro a b hab
      refine ⟨hab.1, fun hz => ?_⟩
      obtain ⟨hb1, hb2, hb3⟩ := hab.2 hz
      exact ⟨fun hmem => hb1 (List.mem_cons_of_mem _ hmem), by omega, hb3⟩
    · simp only [assignNew, if_neg h0]
      exact List.Forall₂.cons ⟨fun _ => rfl, fun h => absurd h h0⟩ (ih used next)

/-- A member of the right-hand list of a `Forall₂` has a related member on
the left. -/
lemma forall2_mem_right {α β : Type} {R : α → β → Prop} :
    ∀ {l : List α} {l' : List β}, List.Forall₂ R l l' → ∀ {b}, b ∈ l' →
      ∃ a ∈ l, R a b := by
  intro l l' h
  induction h with
  | nil => intro b hb; cases hb
  | cons hR _ ih =>
    intro b hb
    rcases List.mem_cons.mp hb with h1 | h1
    · exact ⟨_, List.mem_cons_self _ _, h1 ▸ hR⟩
    · obtain ⟨a, ha, hab⟩ := ih h1
      exact ⟨a, List.mem_cons_of_mem _ ha, hab⟩

/-- Transport a `Pairwise` across a `Forall₂`. -/
lemma forall2_pairwise {α β : Type} {R : α → β → Prop} {S : α → α → Prop}
    {T : β → β → Prop} :
    ∀ {l : List α} {l' : List β}, List.Forall₂ R l l' → List.Pairwise S l →
      (∀ a b a' b', a ∈ l → b ∈ l → R a a' → R b b' → S a b → T a' b') →
      List.Pairwise T l' := by
  intro l l' h
  induction h with
  | nil => intro _ _; exact List.Pairwise.nil
  | cons hR hF ih =>
    intro hS htrans
    rcases hS with _ | ⟨hhead, htail⟩
    refine List.Pairwise.cons ?_ (ih htail ?_)
    · intro b' hb'
      obtain ⟨b, hb, hbb'⟩ := forall2_mem_right hF hb'
      exact htrans _ _ _ _ (List.mem_cons_self _ _) (List.mem_cons_of_mem _ hb)
        hR hbb' (hhead b hb)
    · intro a b a' b' ha hb
      exact htrans a b a' b' (List.mem_cons_of_mem _ ha) (List.mem_cons_of_mem _ hb)

/-- Composition of two `Forall₂`s. -/
lemma forall2_trans {α β γ : Type} {R : α → β → Prop} {S : β → γ → Prop}
    {T : α → γ → Prop} (h : ∀ a b c, R a b → S b c → T a c) :
    ∀ {l1 : List α} {l2 : List β} {l3 : List γ},
      List.Forall₂ R l1 l2 → List.Forall₂ S l2 l3 → List.Forall₂ T l1 l3 := by
  intro l1 l2 l3 h12
  induction h12 generalizing l3 with
  | nil =>
    intro h23
    cases h23
    exact List.Forall₂.nil
  | cons hR _ ih =>
    intro h23
    rcases h23 with _ | ⟨hS, htail⟩
    exact List.Forall₂.cons (h _ _ _ hR hS) (ih htail)

/-- Elementwise description of the first pass: a server with no saved entry
is untouched, one with a saved entry gets exactly the saved port, proxy type
and enabled flag. -/
lemma applySaved_forall2 (saved : SettingsMap) :
    ∀ servers : List VpnServer,
      List.Forall₂ (fun s s1 =>
        (saved s.get_server_key = none → s1 = s) ∧
        (∀ st, saved s.get_server_key = some st →
          s1 = { s with local_port := st.local_port, proxy_type := st.proxy_type,
                        enabled := st.enabled }))
        servers (applySaved saved servers).1 := by
  intro servers
  induction servers with
  | nil => exact List.Forall₂.nil
  | cons s rest ih =>
    rcases hs : saved s.get_server_key with _ | st
    · simp only [applySaved, hs]
      exact List.Forall₂.cons
        ⟨fun _ => rfl, fun st hst => absurd (hs ▸ hst) (by simp)⟩ ih
    · simp only [applySaved, hs]
      refine List.Forall₂.cons ⟨fun h => absurd (hs ▸ h) (by simp), ?_⟩ ih
      intro st' hst'
      rw [hs] at hst'
      cases hst'
      rfl

/-- Every saved port of a listed server is recorded in the used set produced
by the first pass. -/
lemma applySaved_mem_used (saved : SettingsMap) :
    ∀ (servers : List VpnServer) (s : VpnServer) (st : ServerSettings),
      s ∈ servers → saved s.get_server_key = some st →
      st.local_port ∈ (applySaved saved servers).2 := by
  intro servers
  induction servers with
  | nil => intro s st hs; cases hs
  | cons a rest ih =>
    intro s st hs hst
    rcases List.mem_cons.mp hs with h1 | h1
    · subst h1
      simp only [applySaved, hst]
      exact List.mem_cons_self _ _
    · have := ih s st h1 hst
      rcases ha : saved a.get_server_key with _ | sta <;>
        simp only [applySaved, ha]
      · exact this
      · exact List.mem_cons_of_mem _ this

/-- Distinctness through the second pass: if every nonzero port carried into
the pass is already in the used set, and nonzero carried ports are pairwise
distinct, then all output ports are pairwise distinct. -/
lemma assignNew_pairwise :
    ∀ (servers : List VpnServer) (used : List Nat) (next : Nat),
      (∀ s ∈ servers, s.local_port ≠ 0 → s.local_port ∈ used) →
      List.Pairwise (fun a b => a.local_port ≠ 0 → b.local_port ≠ 0 →
        a.local_port ≠ b.local_port) servers →
      List.Pairwise (fun a b => a.local_port ≠ b.local_port)
        (assignNew used next servers) := by
  intro servers
  induction servers with
  | nil => intro used next _ _; exact List.Pairwise.nil
  | cons s rest ih =>
    intro used next hpre hpw
    rcases hpw with _ | ⟨hhead, htail⟩
    by_cases h0 : s.local_port = 0
    · obtain ⟨hge, hnot, _⟩ := findFree_spec used next
      simp only [assignNew, if_pos h0]
      refine List.Pairwise.cons ?_ ?_
      · intro s' hs'
        show findFree used next ≠ s'.local_port
        obtain ⟨t, ht, hts'⟩ :=
          forall2_mem_right (assignNew_forall2 rest (findFree used next :: used)
            (findFree used next + 1)) hs'
        by_cases htz : t.local_port = 0
        · obtain ⟨hb1, _, _⟩ := hts'.2 htz
          intro heq
          exact hb1 (by rw [← heq]; exact List.mem_cons_self _ _)
        · rw [hts'.1 htz]
          have hmem := hpre t (List.mem_cons_of_mem _ ht) htz
          intro heq
          exact hnot (by rw [heq]; exact hmem)
      · refine ih _ _ ?_ htail
        intro t ht htz
        exact List.mem_cons_of_mem _ (hpre t (List.mem_cons_of_mem _ ht) htz)
    · simp only [assignNew, if_neg h0]
      refine List.Pairwise.cons ?_ ?_
      · intro s' hs'
        obtain ⟨t, ht, hts'⟩ :=
          forall2_mem_right (assignNew_forall2 rest used next) hs'
        by_cases htz : t.local_port = 0
        · obtain ⟨hb1, _, _⟩ := hts'.2 htz
          have hmem := hpre s (List.mem_cons_self _ _) h0
          intro heq
          exact hb1 (by rw [← heq]; exact hmem)
        · rw [hts'.1 htz]
          exact hhead t ht h0 htz
      · refine ih _ _ ?_ htail
        intro t ht htz
        exact hpre t (List.mem_cons_of_mem _ ht) htz

/-- `filterMap` preserves a pairwise relation that the element relation
guarantees on surviving images. -/
lemma pairwise_filterMap {α β : Type} {R : α → α → Prop} {S : β → β → Prop}
    (f : α → Option β)
    (h : ∀ a b x y, f a = some x → f b = some y → R a b → S x y) :
    ∀ l : List α, List.Pairwise R l → List.Pairwise S (l.filterMap f) := by
  intro l
  induction l with
  | nil => intro _; exact List.Pairwise.nil
  | cons a t ih =>
    intro hp
    rcases hp with _ | ⟨hhead, htail⟩
    rcases hfa : f a with _ | x
    · simp only [List.filterMap_cons, hfa]
      exact ih htail
    · simp only [List.filterMap_cons, hfa]
      refine List.Pairwise.cons ?_ (ih htail)
      intro y hy
      obtain ⟨b, hb, hfb⟩ := List.mem_filterMap.mp hy
      exact h a b x y hfa hfb (hhead b hb)

/-! ## Claims -/

/-- C1 (counterexample): two distinct saved-settings entries both specify
local port 2000; `assign_local_ports` keeps both verbatim, so two servers in
the result hold the same local port — refuting the claim for the case it
explicitly includes. -/
theorem C1_counterexample :
    ¬ List.Pairwise (fun a b => a.local_port ≠ b.local_port)
      (assign_local_ports [fxServerA, fxServerB] fxSavedDup) := by decide

/-- C1 (amended): for a fetched list (every server carries the sentinel
`local_port = 0`), if no two servers' saved settings specify the same nonzero
local port, then after one call to `assign_local_ports` no two servers hold
the same local port. -/
theorem C1_amended (servers : List VpnServer) (saved : SettingsMap)
    (hzero : ∀ s ∈ servers, s.local_port = 0)
    (hdist : List.Pairwise (fun a b => ∀ sta stb,
      saved a.get_server_key = some sta → saved b.get_server_key = some stb →
      sta.local_port ≠ 0 → stb.local_port ≠ 0 →
      sta.local_port ≠ stb.local_port) servers) :
    List.Pairwise (fun a b => a.local_port ≠ b.local_port)
      (assign_local_ports servers saved) := by
  show List.Pairwise _
    (assignNew (applySaved saved servers).2 1080 (applySaved saved servers).1)
  refine assignNew_pairwise _ _ _ ?_ ?_
  · intro s1 hs1 hnz
    obtain ⟨t, ht, hrel⟩ := forall2_mem_right (applySaved_forall2 saved servers) hs1
    rcases hsv : saved t.get_server_key with _ | st
    · rw [hrel.1 hsv] at hnz
      exact absurd (hzero t ht) hnz
    · rw [hrel.2 st hsv]
      exact applySaved_mem_used saved servers t st ht hsv
  · refine forall2_pairwise (applySaved_forall2 saved servers) hdist ?_
    intro a b a' b' ha hb hra hrb hS hnza hnzb
    rcases hsa : saved a.get_server_key with _ | sta
    · rw [hra.1 hsa] at hnza
      exact absurd (hzero a ha) hnza
    · rcases hsb : saved b.get_server_key with _ | stb
      · rw [hrb.1 hsb] at hnzb
        exact absurd (hzero b hb) hnzb
      · rw [hra.2 sta hsa] at hnza ⊢
        rw [hrb.2 stb hsb] at hnzb ⊢
        exact hS sta stb hsa hsb hnza hnzb

/-- C1 (witness): the amended theorem applied to the two fixture servers with
no saved settings, giving distinct ports 1080 and 1081. -/
theorem C1_witness :
    (∀ s ∈ [fxServerA, fxServerB], s.local_port = 0) ∧
    List.Pairwise (fun a b => a.local_port ≠ b.local_port)
      (assign_local_ports [fxServerA, fxServerB] (fun _ => none)) :=
  ⟨by decide,
    C1_amended [fxServerA, fxServerB] (fun _ => none) (by decide)
      (by
        refine List.Pairwise.cons ?_ (List.Pairwise.cons ?_ List.Pairwise.nil)
        · intro x hx sta stb h
          exact Option.noConfusion h
        · intro x hx sta stb h
          exact Option.noConfusion h)⟩

/-- C2 (counterexample): the key of `fxServerA` is present in the saved
settings with `local_port = 0`, yet after `assign_local_ports` its local port
is 1080, not the saved 0 — the sentinel value 0 is reallocated by the second
pass rather than applied verbatim. -/
theorem C2_counterexample :
    fxSavedZero fxServerA.get_server_key =
      some { local_port := 0, proxy_type := "HTTP", enabled := true } ∧
    ¬ ((assign_local_ports [fxServerA] fxSavedZero).map (fun s => s.local_port) = [0]) ∧
    (assign_local_ports [fxServerA] fxSavedZero).map (fun s => s.local_port) = [1080] := by
  decide

/-- C2 (amended): for every server whose key is in the saved settings, the
merged server carries the saved proxy type and enabled flag, and — provided
the saved local port is nonzero — the saved local port verbatim.  (A saved
local port of 0 is the unassigned sentinel and is reallocated.) -/
theorem C2_amended (servers : List VpnServer) (saved : SettingsMap) :
    List.Forall₂ (fun s s' => ∀ st, saved s.get_server_key = some st →
      s'.proxy_type = st.proxy_type ∧ s'.enabled = st.enabled ∧
      (st.local_port ≠ 0 → s'.local_port = st.local_port))
      servers (assign_local_ports servers saved) := by
  show List.Forall₂ _ servers
    (assignNew (applySaved saved servers).2 1080 (applySaved saved servers).1)
  refine forall2_trans ?_ (applySaved_forall2 saved servers)
    (assignNew_forall2 (applySaved saved servers).1 (applySaved saved servers).2 1080)
  intro s s1 s' h1 h2 st hst
  have he1 := h1.2 st hst
  by_cases hz : st.local_port = 0
  · have hs1z : s1.local_port = 0 := by rw [he1]; exact hz
    obtain ⟨_, _, he2⟩ := h2.2 hs1z
    rw [he2, he1]
    exact ⟨rfl, rfl, fun hnz => absurd hz hnz⟩
  · have hs1nz : s1.local_port ≠ 0 := by rw [he1]; exact hz
    rw [h2.1 hs1nz, he1]
    exact ⟨rfl, rfl, fun _ => rfl⟩

/-- C3: the code's second pass (a scan that resumes from the running
`next_port`) gives every sentinel-0 server, in input order, exactly the
smallest port ≥ 1080 not yet in the used set at the moment it is processed,
and records it as used before the next server — i.e. `assign_local_ports`
coincides with the spec-worded allocator `assignNewSpec` run on the first
pass's output. -/
theorem C3_smallest_free_port (servers : List VpnServer) (saved : SettingsMap) :
    assign_local_ports servers saved =
      assignNewSpec (applySaved saved servers).2 (applySaved saved servers).1 := by
  show assignNew (applySaved saved servers).2 1080 (applySaved saved servers).1 = _
  exact assignNew_eq_spec _ _ _ (Nat.le_refl 1080) (fun q h1 h2 => absurd h1 (by omega))

/-- C4 (counterexample): a feed whose decoded body repeats the same line
twice produces two servers with identical keys — `fetch_and_process_vpn_list`
performs no deduplication, so keys are not unique in the snapshot. -/
theorem C4_counterexample :
    ¬ List.Pairwise (fun a b => a.get_server_key ≠ b.get_server_key)
      (fetch_and_process_vpn_list fxB64 fxUtf8 fxMeta (.body "AA")) := by decide

/-- C4 (amended): keys are unique in the produced snapshot provided the
decoded feed's lines parse to pairwise-distinct server keys (duplicate lines
— or distinct lines decoding to the same protocol/address/port — yield
duplicate keys). -/
theorem C4_amended (b64 : B64Decoder) (utf8 : Utf8Decoder) (gm : MetaDecoder)
    (content : String) (bytes : List Nat) (text : String)
    (h1 : b64 (strTrim content) = some bytes) (h2 : utf8 bytes = some text)
    (h3 : List.Pairwise (fun l1 l2 => parsedKey gm l1 = none ∨ parsedKey gm l2 = none ∨
      parsedKey gm l1 ≠ parsedKey gm l2) (rustLines text)) :
    List.Pairwise (fun a b => a.get_server_key ≠ b.get_server_key)
      (fetch_and_process_vpn_list b64 utf8 gm (.body content)) := by
  simp only [fetch_and_process_vpn_list, h1, h2, process_decoded_text]
  refine pairwise_filterMap _ ?_ _ h3
  intro a b x y hfa hfb hR
  rcases hR with h | h | h
  · rw [parsedKey, hfa] at h
    exact absurd h (by simp)
  · rw [parsedKey, hfb] at h
    exact absurd h (by simp)
  · intro heq
    exact h (by rw [parsedKey, parsedKey, hfa, hfb, Option.map_some', Option.map_some', heq])

/-- C4 (witness): the amended theorem applied to a feed of two distinct
lines, whose two parsed servers have distinct keys. -/
theorem C4_witness :
    fxB64 (strTrim "BB") = some [1] ∧
    fxUtf8 [1] = some "vless://a\nvless://b" ∧
    List.Pairwise (fun l1 l2 => parsedKey fxMeta l1 = none ∨ parsedKey fxMeta l2 = none ∨
      parsedKey fxMeta l1 ≠ parsedKey fxMeta l2) (rustLines "vless://a\nvless://b") ∧
    List.Pairwise (fun a b => a.get_server_key ≠ b.get_server_key)
      (fetch_and_process_vpn_list fxB64 fxUtf8 fxMeta (.body "BB")) :=
  ⟨by decide, by decide, by decide,
    C4_amended fxB64 fxUtf8 fxMeta "BB" [1] "vless://a\nvless://b"
      (by decide) (by decide) (by decide)⟩

/-- C5 (counterexample): for the proxy kind `"DIRECT"` — neither `"SOCKS"`
nor `"HTTP"` — `start_server`'s port selection binds the SOCKS listener, not
the HTTP listener the claim asserts for every non-SOCKS kind. -/
theorem C5_counterexample :
    determine_ports "DIRECT" 1080 = (some 1080, none) ∧
    determine_ports "DIRECT" 1080 ≠ (none, some 1080) := by decide

/-- C5 (amended): `start_server` binds the SOCKS listener for `"SOCKS"`, the
HTTP listener for `"HTTP"`, and defaults to the SOCKS listener for every
other proxy-kind value. -/
theorem C5_amended (proxy_type : String) (local_port : Nat) :
    determine_ports proxy_type local_port =
      if proxy_type = "SOCKS" then (some local_port, none)
      else if proxy_type = "HTTP" then (none, some local_port)
      else (some local_port, none) := by
  unfold determine_ports
  split <;> simp_all

/-- C6: whenever the spawn of the tunnel-engine process fails inside
`start_server`, the call returns the mapped error and the process table is
returned unchanged — no entry is inserted. -/
theorem C6_spawn_failure (create_json_config : ConfigBuilder) (spawn : Spawner)
    (table : ProcTable) (server_key uri : String) (local_port : Nat)
    (proxy_type xray_binary_path : String) (e : String)
    (h : spawn (create_json_config uri (determine_ports proxy_type local_port).1
        (determine_ports proxy_type local_port).2) xray_binary_path = .error e) :
    start_server create_json_config spawn table server_key uri local_port proxy_type
      xray_binary_path = (.error ("Failed to start xray: " ++ e), table) := by
  have hdef : start_server create_json_config spawn table server_key uri local_port
      proxy_type xray_binary_path =
      match spawn (create_json_config uri (determine_ports proxy_type local_port).1
          (determine_ports proxy_type local_port).2) xray_binary_path with
      | .error err => (.error ("Failed to start xray: " ++ err), table)
      | .ok runner => (.ok (), tableInsert table server_key runner) := rfl
  rw [hdef, h]

/-- C6 (witness): a spawner that always fails leaves the fixture table
unchanged and surfaces the error. -/
theorem C6_witness :
    fxSpawnFail (fxCfg "uri" (determine_ports "SOCKS" 1080).1
      (determine_ports "SOCKS" 1080).2) "/bin/xray" = .error "boom" ∧
    start_server fxCfg fxSpawnFail fxTable "k" "uri" 1080 "SOCKS" "/bin/xray" =
      (.error ("Failed to start xray: " ++ "boom"), fxTable) :=
  ⟨rfl, C6_spawn_failure fxCfg fxSpawnFail fxTable "k" "uri" 1080 "SOCKS" "/bin/xray"
    "boom" rfl⟩

/-- C7: `stop_all_servers` always returns success and always leaves the
process table empty, whatever the individual termination outcomes (the
`stop` capability is arbitrary and its per-entry results are discarded). -/
theorem C7_stop_all (stop : Stopper) (table : ProcTable) :
    stop_all_servers stop table = (.ok (), []) := rfl

/-- C8: the fetch/decode pipeline never surfaces an error: transport and
body failures, base64 failures and UTF-8 failures each yield the empty list,
and a single line that fails URI decoding is dropped while every other line
is processed unchanged. -/
theorem C8_degrades_gracefully (b64 : B64Decoder) (utf8 : Utf8Decoder) (gm : MetaDecoder) :
    fetch_and_process_vpn_list b64 utf8 gm .getErr = [] ∧
    fetch_and_process_vpn_list b64 utf8 gm .textErr = [] ∧
    (∀ content, b64 (strTrim content) = none →
      fetch_and_process_vpn_list b64 utf8 gm (.body content) = []) ∧
    (∀ content bytes, b64 (strTrim content) = some bytes → utf8 bytes = none →
      fetch_and_process_vpn_list b64 utf8 gm (.body content) = []) ∧
    (∀ content bytes text pre bad post,
      b64 (strTrim content) = some bytes → utf8 bytes = some text →
      rustLines text = pre ++ bad :: post → parse_vpn_uri gm (strTrim bad) = none →
      fetch_and_process_vpn_list b64 utf8 gm (.body content) =
        pre.filterMap (fun line => parse_vpn_uri gm (strTrim line)) ++
        post.filterMap (fun line => parse_vpn_uri gm (strTrim line))) := by
  refine ⟨rfl, rfl, ?_, ?_, ?_⟩
  · intro content h
    simp [fetch_and_process_vpn_list, h]
  · intro content bytes h1 h2
    simp [fetch_and_process_vpn_list, h1, h2]
  · intro content bytes text pre bad post h1 h2 h3 h4
    simp only [fetch_and_process_vpn_list, h1, h2, process_decoded_text, h3]
    rw [List.filterMap_append]
    congr 1
    simp [List.filterMap_cons, h4]

/-- C8 (witness): a feed with an unparseable middle line yields exactly the
parses of the two surrounding lines. -/
theorem C8_witness :
    fxB64 (strTrim "CC") = some [2] ∧
    fxUtf8 [2] = some "vless://a\nvmess://bad\nvless://b" ∧
    rustLines "vless://a\nvmess://bad\nvless://b" =
      ["vless://a"] ++ "vmess://bad" :: ["vless://b"] ∧
    parse_vpn_uri fxMeta (strTrim "vmess://bad") = none ∧
    fetch_and_process_vpn_list fxB64 fxUtf8 fxMeta (.body "CC") =
      ["vless://a"].filterMap (fun line => parse_vpn_uri fxMeta (strTrim line)) ++
      ["vless://b"].filterMap (fun line => parse_vpn_uri fxMeta (strTrim line)) :=
  ⟨by decide, by decide, by decide, by decide,
    (C8_degrades_gracefully fxB64 fxUtf8 fxMeta).2.2.2.2 "CC" [2]
      "vless://a\nvmess://bad\nvless://b" ["vless://a"] "vmess://bad" ["vless://b"]
      (by decide) (by decide) (by decide) (by decide)⟩

/-- C9: a reconciliation cycle whose loaded config has an empty subscription
URL or an empty engine binary path stops everything, starts nothing, leaves
the process table empty, and leaves the published registry snapshot
unchanged. -/
theorem C9_unconfigured (env : RestartEnv) (st : AppState) (config : Config)
    (h1 : env.load_result = .ok config)
    (h2 : config.subscription_url = "" ∨ config.xray_binary_path = "") :
    restart_xray_servers env st =
      { xray_processes := [], vpn_servers := st.vpn_servers } := by
  have hneg : ¬ (config.subscription_url ≠ "" ∧ config.xray_binary_path ≠ "") := by
    tauto
  simp only [restart_xray_servers, h1]
  rw [if_neg hneg]
  rfl

/-- C9 (witness): the unconfigured cycle on a state with one tracked process
and a published snapshot. -/
theorem C9_witness :
    fxEnvNoUrl.load_result = .ok fxConfigNoUrl ∧
    (fxConfigNoUrl.subscription_url = "" ∨ fxConfigNoUrl.xray_binary_path = "") ∧
    restart_xray_servers fxEnvNoUrl fxState =
      { xray_processes := [], vpn_servers := fxState.vpn_servers } :=
  ⟨rfl, Or.inl rfl, C9_unconfigured fxEnvNoUrl fxState fxConfigNoUrl rfl (Or.inl rfl)⟩

/-- C10: after `stop_server` returns — with success or with an error — the
process table holds no entry for the key: the entry is removed before
termination is attempted. -/
theorem C10_key_untracked (stop : Stopper) (table : ProcTable) (server_key : String) :
    tableFind (stop_server stop table server_key).2 server_key = none := by
  have h0 : List.find? (fun e => e.1 = server_key)
      (List.filter (fun e => e.1 ≠ server_key) table) = none := by
    rw [List.find?_eq_none]
    intro x hx
    simp only [List.mem_filter, decide_eq_true_eq] at hx
    simp only [decide_eq_true_eq]
    exact hx.2
  have herase : tableFind (tableErase table server_key) server_key = none := by
    simp [tableFind, tableErase, h0]
  rcases hf : tableFind table server_key with _ | r
  · simp only [stop_server, hf]
  · rcases hs : stop r with e | u <;> simp [stop_server, hf, hs, herase]

end VpnManager
